import Mathlib

/-!
# Verification of CDLPython time-dependent block semantics

Shallow embedding of the stateful signal-processing blocks of the
`cdl_python` package.  Python floats are modelled as `ℚ`, mutable
instance attributes as explicit state records threaded through the
`compute` functions, and raised exceptions as `Except PyErr`.
Each definition is translated from the named source file.
-/

/-- Python exception classes relevant to the embedded code.  The source
raises the builtins `ValueError` (`time_manager.py` line 97) and
`RuntimeError` (`base.py` line 69).  The constructors
`configurationError` and `missingTimeSourceError` model the error class
names the specification postulates; no class of either name exists
anywhere in the repository, so no embedded function ever returns them. -/
inductive PyErr where
  | valueError
  | runtimeError
  | configurationError
  | missingTimeSourceError
deriving DecidableEq, Repr

/-- State of a `TimeManager` (`time_manager.py` lines 36-61) operating in
SIMULATION mode: `current_time` starts at 0.0 when no `start_time` is
given, and `time_step` is the optional default increment.  REALTIME mode
reads the wall clock (`time.time()`) and is outside this embedding; every
claim below concerns SIMULATION mode only. -/
structure TimeManager where
  current_time : ℚ
  time_step : Option ℚ
deriving DecidableEq, Repr

/-- `TimeManager.advance` (`time_manager.py` lines 74-103), SIMULATION
branch: add `dt` when given, else add the configured `time_step`, else
raise `ValueError` (message: SIMULATION mode requires dt parameter or
time_step to be set).  Returns the mutated manager and the new
`current_time`. -/
def TimeManager.advance (tm : TimeManager) (dt : Option ℚ) :
    Except PyErr (TimeManager × ℚ) :=
  match dt with
  | some d =>
      let t := tm.current_time + d
      .ok ({ tm with current_time := t }, t)
  | none =>
      match tm.time_step with
      | some step =>
          let t := tm.current_time + step
          .ok ({ tm with current_time := t }, t)
      | none => .error .valueError

/-- `CDLBlock.get_time` (`base.py` lines 58-72): raise `RuntimeError`
when the block has no attached `TimeManager` (`self.time_manager is
None`), else delegate to `TimeManager.get_time`, which in SIMULATION
mode returns `current_time` unchanged (`time_manager.py` lines 62-72). -/
def CDLBlock.get_time (time_manager : Option TimeManager) : Except PyErr ℚ :=
  match time_manager with
  | none => .error .runtimeError
  | some tm => .ok tm.current_time

/-! ## UnitDelay (`CDL/Discrete/UnitDelay.py`) -/

/-- Instance attributes of `UnitDelay` (`UnitDelay.py` lines 20-29):
configuration `y_start` plus the mutable `_previous_u` and
`_first_call`.  The inherited `_state` dict is never used by this block
and stays empty, so it is not carried here. -/
structure UnitDelay where
  y_start : ℚ
  previous_u : ℚ
  first_call : Bool
deriving DecidableEq, Repr

/-- Constructor `UnitDelay.__init__` (`UnitDelay.py` lines 20-29):
`_previous_u = y_start`, `_first_call = True`. -/
def UnitDelay.init (y_start : ℚ) : UnitDelay :=
  ⟨y_start, y_start, true⟩

/-- `UnitDelay.compute` (`UnitDelay.py` lines 31-50): output `y_start` on
the first call and `_previous_u` afterwards, then store the current
input. -/
def UnitDelay.compute (st : UnitDelay) (u : ℚ) : UnitDelay × ℚ :=
  let y := if st.first_call then st.y_start else st.previous_u
  ({ st with previous_u := u, first_call := false }, y)

/-- Repeated calls of `UnitDelay.compute`, collecting the outputs. -/
def UnitDelay.run (st : UnitDelay) : List ℚ → List ℚ
  | [] => []
  | u :: us =>
      let r := st.compute u
      r.2 :: r.1.run us

/-- `UnitDelay.reset_state` is not overridden in `UnitDelay.py`; the
inherited `CDLBlock.reset_state` (`base.py` lines 50-56) only reassigns
the `_state` dict, which `UnitDelay` never reads or writes, so none of
the attributes that drive `UnitDelay.compute` change. -/
def UnitDelay.reset_state (st : UnitDelay) : UnitDelay := st

lemma UnitDelay.run_not_first (p : ℚ) (ys : ℚ) (us : List ℚ) :
    UnitDelay.run ⟨ys, p, false⟩ us = (p :: us).dropLast := by
  induction us generalizing p with
  | nil => simp [UnitDelay.run]
  | cons a us ih =>
      have hstep : UnitDelay.run ⟨ys, p, false⟩ (a :: us)
          = p :: UnitDelay.run ⟨ys, a, false⟩ us := by
        simp [UnitDelay.run, UnitDelay.compute]
      rw [hstep, ih a]
      cases us <;> simp

/-! ## Sampler and ZeroOrderHold (`CDL/Discrete/Sampler.py`,
`CDL/Discrete/ZeroOrderHold.py`) -/

/-- Catch-up loop shared by `Sampler.compute` (`Sampler.py` lines 53-54)
and `ZeroOrderHold.compute` (`ZeroOrderHold.py` lines 52-53):
`while next_sample_time <= current_time: next_sample_time +=
samplePeriod`.  The guard `0 < period` makes the recursion well founded;
both constructors reject `samplePeriod <= 0` (`Sampler.py` line 27,
`ZeroOrderHold.py` line 29), so the loop is only ever entered with a
positive period. -/
def catchUpLoop (period t nst : ℚ) : ℚ :=
  if h : 0 < period ∧ nst ≤ t then catchUpLoop period t (nst + period) else nst
termination_by (⌊(t - nst) / period⌋ + 1).toNat
decreasing_by
  obtain ⟨hp, hle⟩ := h
  have h0 : (0 : ℚ) ≤ (t - nst) / period := div_nonneg (by linarith) hp.le
  have ha : 0 ≤ ⌊(t - nst) / period⌋ := Int.floor_nonneg.mpr h0
  have hstep : (t - (nst + period)) / period = (t - nst) / period - 1 := by
    field_simp
    ring
  have hfl : ⌊(t - (nst + period)) / period⌋ = ⌊(t - nst) / period⌋ - 1 := by
    rw [hstep]
    exact_mod_cast Int.floor_sub_int ((t - nst) / period) 1
  rw [hfl]
  omega

lemma catchUpLoop_of_gt (period t nst : ℚ) (h : t < nst) :
    catchUpLoop period t nst = nst := by
  rw [catchUpLoop]
  simp [not_le.mpr h]

/-- Instance attributes of `Sampler` (`Sampler.py` lines 18-33):
configuration `samplePeriod` and `startTime`, plus the mutable
`_sampled_value`, `_next_sample_time` and `_initialized`. -/
structure Sampler where
  samplePeriod : ℚ
  startTime : ℚ
  sampled_value : ℚ
  next_sample_time : ℚ
  initialized : Bool
deriving DecidableEq, Repr

/-- Constructor `Sampler.__init__` (`Sampler.py` lines 18-33):
`_sampled_value = 0.0`, `_next_sample_time = startTime`,
`_initialized = False`. -/
def Sampler.init (samplePeriod startTime : ℚ) : Sampler :=
  ⟨samplePeriod, startTime, 0, startTime, false⟩

/-- `Sampler.compute` (`Sampler.py` lines 35-56): sample `u` when
`current_time >= _next_sample_time or not _initialized`; advance
`_next_sample_time` through the catch-up loop only when
`current_time >= _next_sample_time`; always return `_sampled_value`. -/
def Sampler.compute (s : Sampler) (current_time u : ℚ) : Sampler × ℚ :=
  if s.next_sample_time ≤ current_time ∨ s.initialized = false then
    let s1 := { s with sampled_value := u, initialized := true }
    let s2 :=
      if s.next_sample_time ≤ current_time then
        { s1 with next_sample_time :=
            catchUpLoop s.samplePeriod current_time s.next_sample_time }
      else s1
    (s2, s2.sampled_value)
  else (s, s.sampled_value)

/-- Repeated calls of `Sampler.compute` on a list of
`(current_time, u)` pairs, collecting the outputs. -/
def Sampler.run (s : Sampler) : List (ℚ × ℚ) → List ℚ
  | [] => []
  | (t, u) :: rest =>
      let r := s.compute t u
      r.2 :: r.1.run rest

/-- Instance attributes of `ZeroOrderHold` (`ZeroOrderHold.py` lines
20-34): configuration `samplePeriod` and `startTime`, plus the mutable
`_held_value` (`None` until the first sample) and `_next_sample_time`. -/
structure ZeroOrderHold where
  samplePeriod : ℚ
  startTime : ℚ
  held_value : Option ℚ
  next_sample_time : ℚ
deriving DecidableEq, Repr

/-- Constructor `ZeroOrderHold.__init__` (`ZeroOrderHold.py` lines
20-34): `_held_value = None`, `_next_sample_time = startTime`. -/
def ZeroOrderHold.init (samplePeriod startTime : ℚ) : ZeroOrderHold :=
  ⟨samplePeriod, startTime, none, startTime⟩

/-- `ZeroOrderHold.compute` (`ZeroOrderHold.py` lines 36-61): sample `u`
and run the catch-up loop when `current_time >= _next_sample_time`; the
output is the held value, or `u` itself while `_held_value is None`. -/
def ZeroOrderHold.compute (z : ZeroOrderHold) (current_time u : ℚ) :
    ZeroOrderHold × ℚ :=
  let z1 :=
    if z.next_sample_time ≤ current_time then
      { z with held_value := some u,
               next_sample_time :=
                 catchUpLoop z.samplePeriod current_time z.next_sample_time }
    else z
  let y := match z1.held_value with
    | none => u
    | some v => v
  (z1, y)

/-- Repeated calls of `ZeroOrderHold.compute` on a list of
`(current_time, u)` pairs, collecting the outputs. -/
def ZeroOrderHold.run (z : ZeroOrderHold) : List (ℚ × ℚ) → List ℚ
  | [] => []
  | (t, u) :: rest =>
      let r := z.compute t u
      r.2 :: r.1.run rest

/-- Coupling invariant between a `Sampler` and a `ZeroOrderHold` that
have taken their first sample: same period, same schedule, and the held
value mirrors the sampled value. -/
def SamplerZohSync (s : Sampler) (z : ZeroOrderHold) : Prop :=
  s.samplePeriod = z.samplePeriod ∧ s.initialized = true ∧
  z.held_value = some s.sampled_value ∧ s.next_sample_time = z.next_sample_time

lemma samplerZohSync_step (s : Sampler) (z : ZeroOrderHold)
    (hsync : SamplerZohSync s z) (t u : ℚ) :
    (s.compute t u).2 = (z.compute t u).2 ∧
    SamplerZohSync (s.compute t u).1 (z.compute t u).1 := by
  obtain ⟨hper, hinit, hheld, hnst⟩ := hsync
  by_cases hle : s.next_sample_time ≤ t
  · constructor
    · simp [Sampler.compute, ZeroOrderHold.compute, hle, hnst ▸ hle]
    · refine ⟨?_, ?_, ?_, ?_⟩ <;>
        simp [Sampler.compute, ZeroOrderHold.compute, hle, hnst ▸ hle, hper, hnst]
  · have hle' : ¬ z.next_sample_time ≤ t := hnst ▸ hle
    constructor
    · simp [Sampler.compute, ZeroOrderHold.compute, hle, hle', hinit, hheld]
    · refine ⟨?_, ?_, ?_, ?_⟩ <;>
        simp [Sampler.compute, ZeroOrderHold.compute, hle, hle', hinit, hheld,
          hnst, hper]

lemma samplerZohSync_run (s : Sampler) (z : ZeroOrderHold)
    (hsync : SamplerZohSync s z) (inputs : List (ℚ × ℚ)) :
    s.run inputs = z.run inputs := by
  induction inputs generalizing s z with
  | nil => rfl
  | cons p rest ih =>
      obtain ⟨t, u⟩ := p
      obtain ⟨hout, hsync'⟩ := samplerZohSync_step s z hsync t u
      simp only [Sampler.run, ZeroOrderHold.run]
      rw [hout, ih _ _ hsync']

/-! ## Timer (`CDL/Logical/Timer.py`) -/

/-- Instance attributes of `Timer` (`Timer.py` lines 27-42): threshold
`t`, `_entry_time` (`None` while the timer is off) and `_passed`. -/
structure Timer where
  t : ℚ
  entry_time : Option ℚ
  passed : Bool
deriving DecidableEq, Repr

/-- Constructor `Timer.__init__` (`Timer.py` lines 27-42):
`_entry_time = None`, `_passed = (t <= 0)`. -/
def Timer.init (t : ℚ) : Timer :=
  ⟨t, none, decide (t ≤ 0)⟩

/-- `Timer.compute` (`Timer.py` lines 44-77): while `u` is true, record
`current_time` as `_entry_time` on the rising transition (and reseed
`_passed = (t <= 0)`), output the elapsed time since `_entry_time`, and
latch `_passed` once `elapsed >= t`; while `u` is false, clear
`_entry_time` and `_passed` and output `0.0`.  Returns the new state and
the outputs `(y, passed)`. -/
def Timer.compute (s : Timer) (current_time : ℚ) (u : Bool) :
    Timer × ℚ × Bool :=
  if u then
    let entry := match s.entry_time with
      | none => current_time
      | some e => e
    let passed0 := match s.entry_time with
      | none => decide (s.t ≤ 0)
      | some _ => s.passed
    let elapsed := current_time - entry
    let passed1 := if s.t ≤ elapsed then true else passed0
    ({ s with entry_time := some entry, passed := passed1 }, elapsed, passed1)
  else
    ({ s with entry_time := none, passed := false }, 0, false)

/-- Repeated calls of `Timer.compute` with `u = True` throughout, at the
given sequence of times, collecting the `y` outputs. -/
def Timer.runTrue (s : Timer) : List ℚ → List ℚ
  | [] => []
  | τ :: ts =>
      let r := s.compute τ true
      r.2.1 :: r.1.runTrue ts

lemma Timer.runTrue_of_entry (s : Timer) (e : ℚ) (hs : s.entry_time = some e)
    (ts : List ℚ) :
    s.runTrue ts = ts.map (fun τ => τ - e) := by
  induction ts generalizing s with
  | nil => rfl
  | cons τ ts ih =>
      have hstate : ((s.compute τ true).1).entry_time = some e := by
        simp [Timer.compute, hs]
      have hy : (s.compute τ true).2.1 = τ - e := by
        simp [Timer.compute, hs]
      simp only [Timer.runTrue, hy, ih _ hstate, List.map]

/-! ## TimerAccumulating (`CDL/Logical/TimerAccumulating.py`) -/

/-- Instance attributes of `TimerAccumulating`
(`TimerAccumulating.py` lines 28-46): threshold `t`, `_accumulated`,
`_entry_time`, `_passed`, `_prev_u`, `_prev_reset`. -/
structure TimerAccumulating where
  t : ℚ
  accumulated : ℚ
  entry_time : Option ℚ
  passed : Bool
  prev_u : Bool
  prev_reset : Bool
deriving DecidableEq, Repr

/-- Constructor `TimerAccumulating.__init__` (`TimerAccumulating.py`
lines 28-46): `_accumulated = 0.0`, `_entry_time = None`,
`_passed = (t <= 0)`, `_prev_u = False`, `_prev_reset = False`. -/
def TimerAccumulating.init (t : ℚ) : TimerAccumulating :=
  ⟨t, 0, none, decide (t ≤ 0), false, false⟩

/-- `TimerAccumulating.compute` (`TimerAccumulating.py` lines 48-94):
when `reset_rising or reset` holds, zero the accumulator, clear
`_entry_time` and set `_passed = (t <= 0)`; else while `u` is true,
accumulate the time since `_entry_time` and latch `_passed` once
`_accumulated >= t`; else pause, clearing only `_entry_time`.  Always
update `_prev_u`, `_prev_reset` and return `(y, passed)` from the
post-update state. -/
def TimerAccumulating.compute (s : TimerAccumulating) (current_time : ℚ)
    (u reset : Bool) : TimerAccumulating × ℚ × Bool :=
  let reset_rising := reset && !s.prev_reset
  if reset_rising || reset then
    let s1 := { s with accumulated := 0, entry_time := none,
                       passed := decide (s.t ≤ 0),
                       prev_u := u, prev_reset := reset }
    (s1, s1.accumulated, s1.passed)
  else if u then
    let s1 := match s.entry_time with
      | none => { s with entry_time := some current_time }
      | some e => { s with accumulated := s.accumulated + (current_time - e),
                           entry_time := some current_time }
    let s2 := if s1.t ≤ s1.accumulated then { s1 with passed := true } else s1
    let s3 := { s2 with prev_u := u, prev_reset := reset }
    (s3, s3.accumulated, s3.passed)
  else
    let s1 := { s with entry_time := none, prev_u := u, prev_reset := reset }
    (s1, s1.accumulated, s1.passed)

/-! ## IntegratorWithReset (`CDL/Reals/IntegratorWithReset.py`) -/

/-- Instance attributes of `IntegratorWithReset`
(`IntegratorWithReset.py` lines 35-58): configuration `k` and `y_start`
plus the state dict entries `y`, `last_time`, `last_trigger`. -/
structure IntegratorWithReset where
  k : ℚ
  y_start : ℚ
  y : ℚ
  last_time : Option ℚ
  last_trigger : Bool
deriving DecidableEq, Repr

/-- Constructor `IntegratorWithReset.__init__`
(`IntegratorWithReset.py` lines 35-58): `y = y_start`,
`last_time = None`, `last_trigger = False`. -/
def IntegratorWithReset.init (k y_start : ℚ) : IntegratorWithReset :=
  ⟨k, y_start, y_start, none, false⟩

/-- `IntegratorWithReset.compute` (`IntegratorWithReset.py` lines
60-102): on a rising edge of `trigger`, set `y = y_reset_in` and return
without integrating; on the first call, record the time and return `y`;
otherwise integrate `y += k * u * dt` only when `dt > 0`. -/
def IntegratorWithReset.compute (s : IntegratorWithReset)
    (current_time u : ℚ) (trigger : Bool) (y_reset_in : ℚ) :
    IntegratorWithReset × ℚ :=
  if trigger && !s.last_trigger then
    ({ s with y := y_reset_in, last_time := some current_time,
              last_trigger := trigger }, y_reset_in)
  else
    match s.last_time with
    | none =>
        ({ s with last_time := some current_time, last_trigger := trigger },
          s.y)
    | some lt =>
        let dt := current_time - lt
        let y1 := if 0 < dt then s.y + s.k * u * dt else s.y
        ({ s with y := y1, last_time := some current_time,
                  last_trigger := trigger }, y1)

/-! ## PID (`CDL/Reals/PID.py`) -/

/-- Controller type enumeration `SimpleController` (`PID.py` lines
10-15). -/
inductive SimpleController where
  | P
  | PI
  | PD
  | PID
deriving DecidableEq, Repr

/-- `self.with_I` (`PID.py` line 107): the controller has an integral
term for types PI and PID. -/
def SimpleController.with_I : SimpleController → Bool
  | .PI => true
  | .PID => true
  | _ => false

/-- `self.with_D` (`PID.py` line 108): the controller has a derivative
term for types PD and PID. -/
def SimpleController.with_D : SimpleController → Bool
  | .PD => true
  | .PID => true
  | _ => false

/-- Configuration parameters of `PID.__init__` (`PID.py` lines 52-104).
The constructor raises `ValueError` when `yMin >= yMax` (`PID.py` lines
90-91); theorems below hypothesise `yMin < yMax` accordingly.  Python
would raise `ZeroDivisionError` for `r = 0`, `Ti = 0`, `Td = 0` or
`k * Ni = 0` on the paths that divide by them; `ℚ` division totalises
those cases as 0, which no claim below depends on. -/
structure PIDCfg where
  controllerType : SimpleController
  k : ℚ
  Ti : ℚ
  Td : ℚ
  r : ℚ
  yMax : ℚ
  yMin : ℚ
  Ni : ℚ
  Nd : ℚ
  xi_start : ℚ
  yd_start : ℚ
  reverseActing : Bool
deriving DecidableEq, Repr

/-- Mutable `_state` dict of `PID` (`PID.py` lines 111-116). -/
structure PIDState where
  integral : ℚ
  last_error : ℚ
  derivative_filtered : ℚ
  last_time : Option ℚ
deriving DecidableEq, Repr

/-- Initial `_state` of `PID` (`PID.py` lines 111-116):
`integral = xi_start`, `last_error = 0.0`,
`derivative_filtered = yd_start`, `last_time = None`. -/
def PIDCfg.initState (cfg : PIDCfg) : PIDState :=
  ⟨cfg.xi_start, 0, cfg.yd_start, none⟩

/-- Control error computed at the top of `PID.compute` (`PID.py` lines
131-133): `error = sign * (u_s - u_m) / r` with `sign = 1` when reverse
acting, `-1` when direct acting. -/
def PIDCfg.error (cfg : PIDCfg) (u_s u_m : ℚ) : ℚ :=
  (if cfg.reverseActing then (1 : ℚ) else -1) * (u_s - u_m) / cfg.r

/-- `PID.compute` (`PID.py` lines 118-182).  First call: record time and
error, return the clamped P term alone.  Later calls: accumulate the
integral and filtered derivative when `dt > 0`, clamp
`y = max(yMin, min(yMax, P + I + D))`, and back-calculate the integral
when the output saturated. -/
def PID.compute (cfg : PIDCfg) (s : PIDState) (current_time u_s u_m : ℚ) :
    PIDState × ℚ :=
  let error := cfg.error u_s u_m
  match s.last_time with
  | none =>
      let P := cfg.k * error
      let y := max cfg.yMin (min cfg.yMax P)
      ({ s with last_time := some current_time, last_error := error }, y)
  | some lt =>
      let dt := current_time - lt
      let P := cfg.k * error
      let integral1 :=
        if cfg.controllerType.with_I ∧ 0 < dt then s.integral + error * dt
        else s.integral
      let I :=
        if cfg.controllerType.with_I ∧ 0 < dt then cfg.k / cfg.Ti * integral1
        else 0
      let df1 :=
        if cfg.controllerType.with_D ∧ 0 < dt then
          let derivative := (error - s.last_error) / dt
          let alpha := dt * cfg.Nd / cfg.Td
          s.derivative_filtered + alpha * (derivative - s.derivative_filtered)
        else s.derivative_filtered
      let D :=
        if cfg.controllerType.with_D ∧ 0 < dt then cfg.k * cfg.Td * df1
        else 0
      let y_unlim := P + I + D
      let y := max cfg.yMin (min cfg.yMax y_unlim)
      let integral2 :=
        if cfg.controllerType.with_I ∧ y ≠ y_unlim ∧ 0 < dt then
          integral1 - (y_unlim - y) / (cfg.k * cfg.Ni) * dt
        else integral1
      (⟨integral2, error, df1, some current_time⟩, y)

/-- Repeated calls of `PID.compute` on a list of `(current_time, u_s,
u_m)` triples, collecting the outputs. -/
def PID.run (cfg : PIDCfg) (s : PIDState) : List (ℚ × ℚ × ℚ) → List ℚ
  | [] => []
  | (t, u_s, u_m) :: rest =>
      let r := PID.compute cfg s t u_s u_m
      r.2 :: PID.run cfg r.1 rest

lemma PID.compute_clamped (cfg : PIDCfg) (s : PIDState)
    (t u_s u_m : ℚ) (h : cfg.yMin ≤ cfg.yMax) :
    cfg.yMin ≤ (PID.compute cfg s t u_s u_m).2 ∧
    (PID.compute cfg s t u_s u_m).2 ≤ cfg.yMax := by
  unfold PID.compute
  cases s.last_time <;>
    exact ⟨le_max_left _ _, max_le h (min_le_left _ _)⟩

lemma PID.run_clamped (cfg : PIDCfg) (s : PIDState)
    (inputs : List (ℚ × ℚ × ℚ)) (h : cfg.yMin ≤ cfg.yMax) :
    ∀ y ∈ PID.run cfg s inputs, cfg.yMin ≤ y ∧ y ≤ cfg.yMax := by
  induction inputs generalizing s with
  | nil => simp [PID.run]
  | cons p rest ih =>
      obtain ⟨t, u_s, u_m⟩ := p
      intro y hy
      simp only [PID.run, List.mem_cons] at hy
      rcases hy with hy | hy
      · exact hy ▸ PID.compute_clamped cfg s t u_s u_m h
      · exact ih _ y hy

/-- `Timer.compute` as invoked through the block interface: the first
statement of the Python method is `current_time = self.get_time()`
(`Timer.py` line 54), with no enclosing try/except anywhere in the
class or its base, so a missing TimeManager propagates as the
`RuntimeError` raised by `CDLBlock.get_time`. -/
def Timer.computeChecked (time_manager : Option TimeManager) (s : Timer)
    (u : Bool) : Except PyErr (Timer × ℚ × Bool) :=
  match CDLBlock.get_time time_manager with
  | .error e => .error e
  | .ok t => .ok (s.compute t u)

/-! ## Claim theorems -/

/-- Claim C4: calling `IntegratorWithReset.compute` twice in immediate
succession at the identical `current_time` with identical inputs
`(u, trigger, y_reset_in)` yields the same output and the same final
state as calling it once — the `dt = 0` second call does not integrate
again.  Holds from every state. -/
theorem integrator_second_call_noop (s : IntegratorWithReset) (t u : ℚ)
    (trigger : Bool) (y_reset_in : ℚ) :
    ((s.compute t u trigger y_reset_in).1).compute t u trigger y_reset_in
      = s.compute t u trigger y_reset_in := by
  rcases s with ⟨k, ystart, y, lt?, ltr⟩
  cases trigger <;> cases ltr <;> rcases lt? with _ | lt <;>
    simp_all [IntegratorWithReset.compute]

/-- Claim C5 counterexample: with the default threshold `t = 0`, a
compute call with `reset = True` returns `passed = True`, not `False`
(the code sets `_passed = (self.t <= 0)` on reset,
`TimerAccumulating.py` line 68). -/
theorem timerAccumulating_reset_passed_counterexample :
    ((TimerAccumulating.init 0).compute 0 false true).2.2 ≠ false := by decide

/-- Claim C5 (amended): on every `TimerAccumulating.compute` call where
the `reset` input is true, the returned outputs are `y = 0.0` and
`passed = (t <= 0)` — `False` for every threshold `t > 0`, but `True`
when `t <= 0` (including the default `t = 0`) — regardless of `u` and of
the previous state. -/
theorem timerAccumulating_reset_spec (s : TimerAccumulating) (τ : ℚ)
    (u : Bool) :
    (s.compute τ u true).2.1 = 0 ∧
    ((s.compute τ u true).2.2 = true ↔ s.t ≤ 0) := by
  simp [TimerAccumulating.compute]

/-- Claim C6 counterexample: `TimeManager.advance` in SIMULATION mode
with no `dt` and no configured `time_step` raises `ValueError`
(`time_manager.py` line 97) — the repository defines no
`ConfigurationError` class. -/
theorem timeManager_advance_error_class :
    (TimeManager.mk 0 none).advance none = .error PyErr.valueError ∧
    PyErr.valueError ≠ PyErr.configurationError :=
  ⟨rfl, by decide⟩

/-- Claim C6 (amended): `TimeManager.advance` in SIMULATION mode adds
`dt` to `current_time` when `dt` is given, else adds the configured
`time_step`, and returns the new `current_time`; when neither `dt` is
given nor `time_step` configured, it fails with `ValueError`. -/
theorem timeManager_advance_spec (tm : TimeManager) (dt : Option ℚ) :
    (∀ d, dt = some d →
      tm.advance dt = .ok ({ tm with current_time := tm.current_time + d },
        tm.current_time + d)) ∧
    (∀ step, dt = none → tm.time_step = some step →
      tm.advance dt = .ok ({ tm with current_time := tm.current_time + step },
        tm.current_time + step)) ∧
    (dt = none → tm.time_step = none →
      tm.advance dt = .error PyErr.valueError) := by
  refine ⟨?_, ?_, ?_⟩
  · intro d hd
    subst hd
    rfl
  · intro step hdt hstep
    subst hdt
    simp [TimeManager.advance, hstep]
  · intro hdt hstep
    subst hdt
    simp [TimeManager.advance, hstep]

/-- Witness for C6: all three branches of `timeManager_advance_spec`
evaluated at concrete managers. -/
theorem timeManager_advance_spec_witness :
    (TimeManager.mk 1 (some 2)).advance (some 3)
      = .ok ({ TimeManager.mk 1 (some 2) with current_time := 1 + 3 }, 1 + 3) ∧
    (TimeManager.mk 1 (some 2)).advance none
      = .ok ({ TimeManager.mk 1 (some 2) with current_time := 1 + 2 }, 1 + 2) ∧
    (TimeManager.mk 1 none).advance none = .error PyErr.valueError :=
  ⟨(timeManager_advance_spec (TimeManager.mk 1 (some 2)) (some 3)).1 3 rfl,
   (timeManager_advance_spec (TimeManager.mk 1 (some 2)) none).2.1 2 rfl rfl,
   (timeManager_advance_spec (TimeManager.mk 1 none) none).2.2 rfl rfl⟩

/-- Claim C7 counterexample: `CDLBlock.get_time` with no attached
TimeManager raises `RuntimeError` (`base.py` lines 68-71) — the
repository defines no `MissingTimeSourceError` class. -/
theorem block_get_time_error_class :
    CDLBlock.get_time none = .error PyErr.runtimeError ∧
    PyErr.runtimeError ≠ PyErr.missingTimeSourceError :=
  ⟨rfl, by decide⟩

/-- Claim C7 (amended): calling `get_time()` on a block with no attached
TimeManager fails with `RuntimeError`, raised immediately; a
time-dependent block's `compute` that reads time (here `Timer.compute`,
whose first statement is `self.get_time()`) propagates that
`RuntimeError` unswallowed. -/
theorem block_get_time_no_manager (s : Timer) (u : Bool) :
    CDLBlock.get_time none = .error PyErr.runtimeError ∧
    Timer.computeChecked none s u = .error PyErr.runtimeError :=
  ⟨rfl, rfl⟩

/-- Claim C8: for every start value `s` and input sequence
`[a0, ..., an]`, the output sequence of `UnitDelay(y_start=s).compute`
is `[s, a0, ..., a(n-1)]` (equivalently `(s :: as).dropLast`): the first
call returns `s` and each later call returns the previous call's
input. -/
theorem unitDelay_round_trip (s : ℚ) (as : List ℚ) :
    UnitDelay.run (UnitDelay.init s) as = (s :: as).dropLast := by
  cases as with
  | nil => simp [UnitDelay.run]
  | cons a as =>
      have hstep : UnitDelay.run (UnitDelay.init s) (a :: as)
          = s :: UnitDelay.run ⟨s, a, false⟩ as := by
        simp [UnitDelay.run, UnitDelay.compute, UnitDelay.init]
      rw [hstep, UnitDelay.run_not_first]
      cases as <;> simp

/-- Claim C9: the code violates the reset contract.  `UnitDelay` keeps
its state in the attributes `_previous_u` and `_first_call` and does not
override `reset_state`, so the inherited `reset_state` (which only
clears the unused `_state` dict) leaves them intact: after inputs
`1, 2`, a `reset_state()` and a further call with input `3`, the block
outputs `2` (the pre-reset previous input), whereas a fresh
`UnitDelay(y_start=0)` outputs `0` on its first call. -/
theorem unitDelay_reset_state_ineffective :
    ((((UnitDelay.init 0).compute 1).1.compute 2).1.reset_state.compute 3).2
      = 2 ∧
    ((UnitDelay.init 0).compute 3).2 = 0 := by decide

/-- Claim C10: on the very first compute call of a `Sampler` the output
equals the current input `u` — even when `current_time < startTime`,
because the `not self._initialized` disjunct forces the sample — and on
such an early first call `_next_sample_time` stays at `startTime`. -/
theorem sampler_first_call_passthrough (period startT t u : ℚ) :
    ((Sampler.init period startT).compute t u).2 = u ∧
    (t < startT →
      ((Sampler.init period startT).compute t u).1.next_sample_time
        = startT) := by
  constructor
  · by_cases hle : startT ≤ t <;> simp [Sampler.compute, Sampler.init, hle]
  · intro hlt
    simp [Sampler.compute, Sampler.init, not_le.mpr hlt]

/-- Witness for C10: the early first call at `t = 0 < startTime = 10`
passes `u = 5` through and leaves the schedule at `10`. -/
theorem sampler_first_call_passthrough_witness :
    ((Sampler.init 1 10).compute 0 5).2 = 5 ∧
    ((Sampler.init 1 10).compute 0 5).1.next_sample_time = 10 :=
  ⟨(sampler_first_call_passthrough 1 10 0 5).1,
   (sampler_first_call_passthrough 1 10 0 5).2 (by norm_num)⟩

/-- Claim C1 counterexample: with `samplePeriod = 1`, `startTime = 10`
and two calls before the start time, `Sampler` latches the first input
(its `not self._initialized` branch samples immediately) and outputs
`[1, 1]`, while `ZeroOrderHold` passes the current input through and
outputs `[1, 2]`. -/
theorem sampler_zoh_not_identical :
    Sampler.run (Sampler.init 1 10) [(0, 1), (1, 2)]
      ≠ ZeroOrderHold.run (ZeroOrderHold.init 1 10) [(0, 1), (1, 2)] := by
  decide

/-- Claim C1 (amended): `Sampler` and `ZeroOrderHold` with the same
`samplePeriod > 0` and `startTime` produce identical output sequences on
every sequence of `(current_time, u)` pairs whose first call satisfies
`current_time >= startTime`; the two blocks differ only on calls made
before `startTime` (before the first sample), where `Sampler` holds its
first input and `ZeroOrderHold` passes the current input through. -/
theorem sampler_zoh_equiv (period startT t0 u0 : ℚ) (rest : List (ℚ × ℚ))
    (h : startT ≤ t0) :
    Sampler.run (Sampler.init period startT) ((t0, u0) :: rest)
      = ZeroOrderHold.run (ZeroOrderHold.init period startT)
          ((t0, u0) :: rest) := by
  have hsync : SamplerZohSync ((Sampler.init period startT).compute t0 u0).1
      ((ZeroOrderHold.init period startT).compute t0 u0).1 := by
    refine ⟨?_, ?_, ?_, ?_⟩ <;>
      simp [Sampler.compute, ZeroOrderHold.compute, Sampler.init,
        ZeroOrderHold.init, h]
  have hout : ((Sampler.init period startT).compute t0 u0).2
      = ((ZeroOrderHold.init period startT).compute t0 u0).2 := by
    simp [Sampler.compute, ZeroOrderHold.compute, Sampler.init,
      ZeroOrderHold.init, h]
  simp only [Sampler.run, ZeroOrderHold.run]
  rw [hout, samplerZohSync_run _ _ hsync rest]

/-- Witness for C1: both blocks produce the same outputs on the
two-call sequence `[(0, 5), (1, 7)]` starting at `startTime = 0`. -/
theorem sampler_zoh_equiv_witness :
    (0 : ℚ) ≤ 0 ∧
    Sampler.run (Sampler.init 1 0) [(0, 5), (1, 7)]
      = ZeroOrderHold.run (ZeroOrderHold.init 1 0) [(0, 5), (1, 7)] :=
  ⟨le_refl 0, sampler_zoh_equiv 1 0 0 5 [(1, 7)] (le_refl 0)⟩

/-- Claim C2: every `PID` controller with `yMin < yMax` returns outputs
within `[yMin, yMax]` inclusive on every compute call, for all input
sequences and all controller types, and the first call returns exactly
the clamped P term `max(yMin, min(yMax, k * error))`. -/
theorem pid_output_within_limits (cfg : PIDCfg) (inputs : List (ℚ × ℚ × ℚ))
    (t u_s u_m : ℚ) (h : cfg.yMin < cfg.yMax) :
    (∀ y ∈ PID.run cfg cfg.initState inputs, cfg.yMin ≤ y ∧ y ≤ cfg.yMax) ∧
    (PID.compute cfg cfg.initState t u_s u_m).2
      = max cfg.yMin (min cfg.yMax (cfg.k * cfg.error u_s u_m)) := by
  refine ⟨PID.run_clamped cfg _ inputs h.le, ?_⟩
  simp [PID.compute, PIDCfg.initState]

/-- Default PID configuration of `PID.__init__` (`PID.py` lines 52-66)
with `controllerType = PID`. -/
def pidDefaultCfg : PIDCfg :=
  ⟨.PID, 1, 1/2, 1/10, 1, 1, 0, 9/10, 10, 0, 0, true⟩

/-- Witness for C2: the default-parameter PID controller keeps a
two-call run inside `[0, 1]` and its first call returns the clamped P
term. -/
theorem pid_output_within_limits_witness :
    (0 : ℚ) < 1 ∧
    (∀ y ∈ PID.run pidDefaultCfg pidDefaultCfg.initState
        [(0, 2, 0), (1, 2, 0)], (0 : ℚ) ≤ y ∧ y ≤ 1) ∧
    (PID.compute pidDefaultCfg pidDefaultCfg.initState 0 2 0).2
      = max 0 (min 1 (pidDefaultCfg.k * pidDefaultCfg.error 2 0)) :=
  ⟨by norm_num,
   pid_output_within_limits pidDefaultCfg [(0, 2, 0), (1, 2, 0)] 0 2 0
     (by norm_num [pidDefaultCfg])⟩

/-- Claim C3: with non-decreasing times, over any run of consecutive
`Timer.compute` calls with `u = True` throughout (starting with the
timer not running, i.e. `_entry_time = None`), the outputs equal the
elapsed time since the first call of the run — the moment `u` became
true — and are non-decreasing; and every call with `u = False` outputs
exactly `0.0`. -/
theorem timer_run_spec (s : Timer) (hs : s.entry_time = none)
    (t0 : ℚ) (ts : List ℚ)
    (hmono : List.Chain' (· ≤ ·) (t0 :: ts)) :
    Timer.runTrue s (t0 :: ts) = (t0 :: ts).map (fun τ => τ - t0) ∧
    List.Chain' (· ≤ ·) (Timer.runTrue s (t0 :: ts)) ∧
    ∀ (s1 : Timer) (τ : ℚ), (s1.compute τ false).2.1 = 0 := by
  have hstate : ((s.compute t0 true).1).entry_time = some t0 := by
    simp [Timer.compute, hs]
  have hy : (s.compute t0 true).2.1 = t0 - t0 := by
    simp [Timer.compute, hs]
  have hrun : Timer.runTrue s (t0 :: ts) = (t0 :: ts).map (fun τ => τ - t0) := by
    simp only [Timer.runTrue, hy, List.map,
      Timer.runTrue_of_entry _ _ hstate ts]
  refine ⟨hrun, ?_, ?_⟩
  · rw [hrun, List.chain'_map]
    exact hmono.imp fun a b hab => by linarith
  · intro s1 τ
    simp [Timer.compute]

/-- Witness for C3: a fresh `Timer(t=5)` fed `u = True` at times
`0, 1, 2` outputs the elapsed times `[0, 1, 2]`. -/
theorem timer_run_spec_witness :
    (Timer.init 5).entry_time = none ∧
    List.Chain' (· ≤ ·) [(0 : ℚ), 1, 2] ∧
    Timer.runTrue (Timer.init 5) [0, 1, 2]
      = [(0 : ℚ), 1, 2].map (fun τ => τ - 0) :=
  ⟨rfl, by norm_num [List.chain'_cons],
   (timer_run_spec (Timer.init 5) rfl 0 [1, 2]
     (by norm_num [List.chain'_cons])).1⟩
